import Mathlib

/-!
Shallow embedding of `pycolleff/process_wakes.py`: the wake-file loader
(`load_wake`), the FFT-based impedance extraction (`calc_impedance`) and the
loss/kick factor engines (`calc_loss_factor`, `calc_kick_factor`).

Real (numpy float) arithmetic is modelled by `ℝ`, numpy arrays by `List ℝ`,
complex FFT values by `ℂ`.  Boolean-mask indexing (`a[mask]` over parallel
arrays) is modelled by filtering a zipped list.  Python runtime errors are
modelled by `Except PyErr` wrappers around the pure computations; the wrappers
reproduce exactly the conditions under which numpy raises.
-/

namespace ProcessWakes

/-- Speed of light, the literal `c = 299792458` of the source. -/
def clight : ℝ := 299792458

/-- Python exception kinds relevant to `process_wakes`.  `dataConsistencyError`
is the error class the design document postulates; it is included so that
statements about it can be made (the source never raises it). -/
inductive PyErr
  | attributeError
  | indexError
  | valueError
  | nameError
  | dataConsistencyError
deriving DecidableEq

/-! ### numpy primitives used by the source -/

/-- `numpy.hanning M`: the length-`M` Hanning window,
`w[n] = 0.5 - 0.5*cos(2*pi*n/(M-1))`, with the `M = 1` special case. -/
noncomputable def hanning (M : ℕ) : List ℝ :=
  if M = 1 then [1]
  else (List.range M).map (fun n : ℕ => 0.5 - 0.5 * Real.cos (2 * Real.pi * n / ((M : ℝ) - 1)))

/-- `numpy.fft.fftfreq n d`: sample frequencies
`[0, 1, ..., (n-1)//2, -(n//2), ..., -1] / (n*d)`. -/
noncomputable def fftfreq (n : ℕ) (d : ℝ) : List ℝ :=
  (List.range n).map (fun i : ℕ => (if i ≤ (n - 1) / 2 then (i : ℝ) else (i : ℝ) - n) / (n * d))

/-- `numpy.roll l k`: cyclic right-shift by `k`, `result[i] = l[(i-k) mod len]`. -/
def roll (l : List α) (k : ℕ) : List α :=
  l.drop (l.length - k % l.length) ++ l.take (l.length - k % l.length)

/-- `numpy.fft.fft x`: `X[k] = sum_j x[j] * exp(-2*pi*i*j*k/N)` for real input. -/
noncomputable def npfft (x : List ℝ) : List ℂ :=
  (List.range x.length).map (fun k : ℕ =>
    ∑ j ∈ Finset.range x.length,
      (x[j]! : ℂ) * Complex.exp (-2 * (Real.pi : ℂ) * Complex.I * j * k / (x.length : ℂ)))

/-- `numpy.linspace a b num`: `num` evenly spaced points from `a` to `b`
inclusive, `a + (b-a)*i/(num-1)`. -/
noncomputable def linspace (a b : ℝ) (num : ℕ) : List ℝ :=
  (List.range num).map (fun i : ℕ => a + (b - a) * i / ((num : ℝ) - 1))

/-- `numpy.trapz y x` (equal-length arrays): trapezoidal rule
`sum_i (x[i+1]-x[i]) * (y[i]+y[i+1])/2`, written as numpy does, as the dot
product of `diff x` with the midpoint averages of `y`. -/
noncomputable def trapz (y x : List ℝ) : ℝ :=
  (List.zipWith (· * ·)
    ((List.range (x.length - 1)).map (fun i => x[i+1]! - x[i]!))
    ((List.range (y.length - 1)).map (fun i => (y[i]! + y[i+1]!) / 2))).sum

/-- numpy elementwise binary broadcasting on 1-d arrays: equal lengths operate
pointwise, a length-1 array broadcasts, anything else raises `ValueError`. -/
def bcast2 (f : ℝ → ℝ → ℝ) (a b : List ℝ) : Except PyErr (List ℝ) :=
  if a.length = b.length then .ok (List.zipWith f a b)
  else if a.length = 1 then .ok (b.map (f a.head!))
  else if b.length = 1 then .ok (a.map (fun x => f x b.head!))
  else .error .valueError

/-- `numpy.trapz y x` with numpy's error behaviour: the arrays `diff x` and the
`y`-midpoints are combined by broadcasting, which raises `ValueError` when
their lengths are incompatible. -/
noncomputable def trapzE (y x : List ℝ) : Except PyErr ℝ := do
  let d := (List.range (x.length - 1)).map (fun i => x[i+1]! - x[i]!)
  let mids := (List.range (y.length - 1)).map (fun i => (y[i]! + y[i+1]!) / 2)
  let p ← bcast2 (· * ·) d mids
  return p.sum

/-! ### The wake loader (`load_wake`) -/

/-- Python `str.startswith`, on the underlying character sequences. -/
def pyStartswith (s pre : String) : Bool := pre.data.isPrefixOf s.data

/-- The mutable simulation-parameter record `Simpar` of the source, with the
attributes its `__init__` defines. -/
structure Simpar where
  wakepath : String
  targetdir : String
  datasource : String
  m : ℕ
  offset : ℤ
  sym : Bool
  whichaxis : String
  units : ℤ
  bunlen : ℝ
  cutoff : ℝ

/-- Python attribute lookup for the float-valued attributes of `Simpar`.
`Simpar.__init__` defines `wakepath, targetdir, datasource, m, offset, sym,
whichaxis, units, bunlen, cutoff` and nothing else; in particular it defines
no attribute named `sigma` (the nominal bunch length `sigma` lives on
`Ringpar`), so looking that name up yields `none`, which models Python's
`AttributeError`. -/
def Simpar.floatAttr (sp : Simpar) : String → Option ℝ
  | "bunlen" => some sp.bunlen
  | "cutoff" => some sp.cutoff
  | _ => none

/-- The single-file branch of `load_wake` (sources `ACE3P`, `CST`, `ECHO`):
`spos` is the file's first column and `wake` its second column, negated when
`m = 0`; then the s-axis adjustment block runs.  `rows` models the numeric
content of the loaded file (header lines already skipped by `loadtxt`).
The `ACE3P` branch evaluates `globdata.simpar.sigma`, an attribute `Simpar`
does not have, hence the `AttributeError`.  The final branch models the
`NameError` on `wakepath` when no known source prefix matches (the multi-file
`GdfidL` branch is modelled separately). -/
noncomputable def load_wake_single (sp : Simpar) (rows : List (ℝ × ℝ)) :
    Except PyErr (List ℝ × List ℝ) :=
  let spos := rows.map Prod.fst
  let wake := if sp.m = 0 then rows.map (fun r => -r.2) else rows.map Prod.snd
  if pyStartswith sp.datasource "ACE3P" then
    match sp.floatAttr "sigma" with
    | some v => .ok (spos.map (fun s => s - 5 * v), wake)
    | none => .error .attributeError
  else if pyStartswith sp.datasource "CST" then
    .ok (spos.map (· / 1000), if sp.m > 0 then wake.map (fun x => -x) else wake)
  else if pyStartswith sp.datasource "ECHO" then
    .ok (spos.map (· / 100), wake)
  else
    .error .nameError

/-- A GdfidL header line, modelled by the two coordinates its fixed textual
pattern carries. -/
structure HeaderLine where
  fx : ℝ
  fy : ℝ

instance : Inhabited HeaderLine := ⟨⟨0, 0⟩⟩

/-- Modelled from the spec: the helper `textscan`, which `load_wake` calls to
parse GdfidL header lines, is missing from `src` (it is referenced but never
defined or imported).  Per the spec's pattern
`subtitle= "W_l (x,y)= ( <fx>, <fy> ) [m]"` it extracts the two coordinates,
exposed MATLAB-style so that `coord 1 = fx` and `coord 2 = fy` (matching the
source's `coord[1]`/`coord[2]` accesses selected by axis). -/
def textscan (line : HeaderLine) : ℕ → ℝ :=
  fun i => if i = 1 then line.fx else if i = 2 then line.fy else 0

/-- The GdfidL dipole (`m = 1`), symmetric branch of `load_wake`: average the
second columns of the two offset-probe files, read the third header line of
the companion `Results-Wq` file, extract the transverse shift by axis, and
divide.  (For an axis starting with neither `x` nor `y` the source leaves
`shift` unbound; that path is outside every claim and is modelled by `0`.) -/
noncomputable def load_wake_gdfidl_dip_sym (whaxis : String) (wqlines : List HeaderLine)
    (loadres1 loadres2 : List (ℝ × ℝ)) : List ℝ × List ℝ :=
  let spos := loadres1.map Prod.fst
  let wabs := List.zipWith (fun a b => (a.2 + b.2) / 2) loadres1 loadres2
  let loadres5 := wqlines[2]!
  let coord := textscan loadres5
  let shift := if pyStartswith whaxis "x" then coord 1
               else if pyStartswith whaxis "y" then coord 2 else 0
  (spos, wabs.map (· / shift))

/-! ### The impedance transform (`calc_impedance`) -/

/-- The window `calc_impedance` multiplies into the wake before the FFT:
`numpy.hanning(2*N)[N-1:-1]` for a wake of `N` samples. -/
noncomputable def window (N : ℕ) : List ℝ := ((hanning (2 * N)).drop (N - 1)).dropLast

/-- The result fields `calc_impedance` fills in `globdata.results`. -/
structure ImpRes where
  freq : List ℝ := []
  ReZlong : List ℝ := []
  ImZlong : List ℝ := []
  naxis : List ℝ := []
  ImZoN : List ℝ := []
  ReZt : List ℝ := []
  ImZt : List ℝ := []

/-- `calc_impedance`: rescale the wake to V/C, window it with
`hanning(2N)[N-1:-1]`, FFT, roll zero frequency to the centre, apply the
linear-phase shift and `dt` scale, deconvolve the Gaussian bunch spectrum, cut
at `|w| <= cutoff/sigt`, and map to the Chao-Ng convention (`m = 0`
longitudinal with the `Z/n` arrays, `m > 0` transverse). -/
noncomputable def calc_impedance (m : ℕ) (sigs cutoff f0 : ℝ) (W saxis : List ℝ) : ImpRes :=
  let wake := W.map (· * 1e12)
  let sigt := sigs / clight
  let dt := (saxis.getLast! - saxis.head!) / ((saxis.length : ℝ) - 1) / clight
  let win := window wake.length
  let fftt0 := npfft (List.zipWith (· * ·) wake win)
  let freq0 := fftfreq wake.length dt
  let fftt := roll fftt0 (fftt0.length / 2)
  let freq := roll freq0 (freq0.length / 2)
  let shift := freq.map (fun f : ℝ =>
    Complex.exp (-Complex.I * (2 * (Real.pi : ℂ) * (f : ℂ)) * (saxis.head! : ℂ) / (clight : ℂ)))
  let VHat := List.zipWith (fun sh ff => (dt : ℂ) * sh * ff) shift fftt
  let Jwlist := freq.map (fun f : ℝ => Real.exp (-(2 * Real.pi * f * sigt) ^ 2 / 2))
  let Z := List.zipWith (fun (v : ℂ) (jw : ℝ) => v / (jw : ℂ)) VHat Jwlist
  let wmax := cutoff / sigt
  let kept := (List.zipWith Prod.mk freq Z).filter (fun p => decide (|2 * Real.pi * p.1| ≤ wmax))
  if m = 0 then
    let freqR := kept.map Prod.fst
    let ReZlong := kept.map (fun p => p.2.re)
    let ImZlong := kept.map (fun p => -p.2.im)
    let kept2 := (List.zipWith Prod.mk freqR ImZlong).filter
        (fun p => decide (2 * Real.pi * |p.1| < 20e9 ∧ p.1 ≠ 0))
    { freq := freqR, ReZlong := ReZlong, ImZlong := ImZlong,
      naxis := kept2.map (fun p => p.1 / f0),
      ImZoN := kept2.map (fun p => p.2 / (p.1 / f0)) }
  else
    { freq := kept.map Prod.fst,
      ReZt := kept.map (fun p => p.2.im),
      ImZt := kept.map (fun p => p.2.re) }

/-- `calc_impedance` with Python's runtime error behaviour: `saxis[-1]` on an
empty position array raises `IndexError`; `numpy.fft.fft` of an empty wake
raises `ValueError`; everything else (in particular length-mismatched `W` and
`saxis`) runs to completion. -/
noncomputable def calc_impedance_run (m : ℕ) (sigs cutoff f0 : ℝ) (W saxis : List ℝ) :
    Except PyErr ImpRes :=
  if saxis.isEmpty then .error .indexError
  else if W.isEmpty then .error .valueError
  else .ok (calc_impedance m sigs cutoff f0 W saxis)

/-! ### The loss/kick factor engines -/

/-- The body of the σ-scan loops of `calc_loss_factor` and `calc_kick_factor`:
`k = freq*2*pi/c`, `rhok = exp(-k^2 sig^2)`,
`trapz(Z*rhok, x=k) * c/(2*pi) * 1e-12`. -/
noncomputable def kfactor (freq Zarr : List ℝ) (sig : ℝ) : ℝ :=
  let k := freq.map (fun f => f * 2 * Real.pi / clight)
  trapz (List.zipWith (fun z kk => z * Real.exp (-kk ^ 2 * sig ^ 2)) Zarr k) k
    * clight / (2 * Real.pi) * 1e-12

/-- The loop body with numpy's error behaviour (`Zarr*rhok` and `trapz`
broadcast, raising `ValueError` on incompatible lengths). -/
noncomputable def kfactorE (freq Zarr : List ℝ) (sig : ℝ) : Except PyErr ℝ := do
  let k := freq.map (fun f => f * 2 * Real.pi / clight)
  let rhok := k.map (fun kk => Real.exp (-kk ^ 2 * sig ^ 2))
  let y ← bcast2 (· * ·) Zarr rhok
  let t ← trapzE y k
  return t * clight / (2 * Real.pi) * 1e-12

/-- The result fields `calc_loss_factor` fills. -/
structure LossRes where
  klossZ : List ℝ
  sigmak : List ℝ
  Plossvec : List ℝ
  klossW : ℝ
  Ploss : ℝ

/-- `calc_loss_factor`: the 100-point σ-scan of the frequency-domain loss
factor, the literal six (σ, I) power-loss scenarios, and the time-domain loss
factor and power loss at the simulated bunch length. -/
noncomputable def calc_loss_factor (h omega0 Iavg sigs sigmamax : ℝ)
    (wake saxis freq ReZ : List ℝ) : LossRes :=
  let T0 := 2 * Real.pi / omega0
  let sigi := linspace sigs sigmamax 100
  let kZi := sigi.map (kfactor freq ReZ)
  let sigvec := ([2.65, 5.3, 2.65, 4, 10, 10] : List ℝ).map (· * 1e-3)
  let Ivec := ([500, 500, 10, 110, 110, 500] : List ℝ).map (· * 1e-3)
  let kZvec := sigvec.map (kfactor freq ReZ)
  let Plossvec := List.zipWith (fun kz iv => kz * iv ^ 2 * T0 * 1e12 / h) kZvec Ivec
  let rhos := saxis.map (fun s => 1 / (sigs * Real.sqrt (2 * Real.pi)) * Real.exp (-s ^ 2 / (2 * sigs ^ 2)))
  let kW := trapz (List.zipWith (· * ·) wake rhos) saxis
  { klossZ := kZi, sigmak := sigi, Plossvec := Plossvec,
    klossW := kW, Ploss := kW * Iavg ^ 2 * T0 * 1e12 / h }

/-- `calc_loss_factor` with numpy's error behaviour, sequenced in source
order: the `klossZ` scan loop, the scenario loop, then the time-domain
integral. -/
noncomputable def calc_loss_factor_run (h omega0 Iavg sigs sigmamax : ℝ)
    (wake saxis freq ReZ : List ℝ) : Except PyErr LossRes := do
  let T0 := 2 * Real.pi / omega0
  let sigi := linspace sigs sigmamax 100
  let kZi ← sigi.mapM (kfactorE freq ReZ)
  let sigvec := ([2.65, 5.3, 2.65, 4, 10, 10] : List ℝ).map (· * 1e-3)
  let Ivec := ([500, 500, 10, 110, 110, 500] : List ℝ).map (· * 1e-3)
  let kZvec ← sigvec.mapM (kfactorE freq ReZ)
  let Plossvec := List.zipWith (fun kz iv => kz * iv ^ 2 * T0 * 1e12 / h) kZvec Ivec
  let rhos := saxis.map (fun s => 1 / (sigs * Real.sqrt (2 * Real.pi)) * Real.exp (-s ^ 2 / (2 * sigs ^ 2)))
  let yw ← bcast2 (· * ·) wake rhos
  let kW ← trapzE yw saxis
  return { klossZ := kZi, sigmak := sigi, Plossvec := Plossvec,
           klossW := kW, Ploss := kW * Iavg ^ 2 * T0 * 1e12 / h }

/-- The result fields `calc_kick_factor` fills. -/
structure KickRes where
  kickZ : List ℝ
  sigmak : List ℝ
  kickW : ℝ

/-- `calc_kick_factor`: same σ-scan structure as the loss factor but over
`ImZt`, plus the time-domain kick factor; no power-loss analogue. -/
noncomputable def calc_kick_factor (sigs sigmamax : ℝ)
    (wake saxis freq ImZ : List ℝ) : KickRes :=
  let sigi := linspace sigs sigmamax 100
  let kickZi := sigi.map (kfactor freq ImZ)
  let rhos := saxis.map (fun s => 1 / (sigs * Real.sqrt (2 * Real.pi)) * Real.exp (-s ^ 2 / (2 * sigs ^ 2)))
  let kickW := trapz (List.zipWith (· * ·) wake rhos) saxis
  { kickZ := kickZi, sigmak := sigi, kickW := kickW }

/-- `calc_kick_factor` with numpy's error behaviour, in source order (the
scalar `kickZ` at the simulated bunch length is computed before the loop). -/
noncomputable def calc_kick_factor_run (sigs sigmamax : ℝ)
    (wake saxis freq ImZ : List ℝ) : Except PyErr KickRes := do
  let _kickZ0 ← kfactorE freq ImZ sigs
  let sigi := linspace sigs sigmamax 100
  let kickZi ← sigi.mapM (kfactorE freq ImZ)
  let rhos := saxis.map (fun s => 1 / (sigs * Real.sqrt (2 * Real.pi)) * Real.exp (-s ^ 2 / (2 * sigs ^ 2)))
  let yw ← bcast2 (· * ·) wake rhos
  let kickW ← trapzE yw saxis
  return { kickZ := kickZi, sigmak := sigi, kickW := kickW }

/-! ### Spec-side definitions, written from the claims' wording, for
refinement comparison against the code-side definitions above. -/

/-- The `Z/n` frequency selection exactly as the claim words it: retained
frequencies with `|omega| < 2*pi*20 GHz` (`omega = 2*pi*freq`) and
`freq ≠ 0`, mapped to harmonic number `n = freq/f0`. -/
noncomputable def naxisClaimed (freqs : List ℝ) (f0 : ℝ) : List ℝ :=
  (freqs.filter (fun f => decide (|2 * Real.pi * f| < 2 * Real.pi * 20e9 ∧ f ≠ 0))).map
    (fun f => f / f0)

/-- The `Z/n` frequency selection the code actually performs, worded over the
retained frequency axis: `2*pi*|freq| < 20e9` (that is `|omega| < 20e9 rad/s`)
and `freq ≠ 0`. -/
noncomputable def naxisCode (freqs : List ℝ) (f0 : ℝ) : List ℝ :=
  (freqs.filter (fun f => decide (2 * Real.pi * |f| < 20e9 ∧ f ≠ 0))).map (fun f => f / f0)

/-- The frequency-domain factor exactly as the claim words it:
`(c/2*pi) * 1e-12` times the trapezoidal integral over angular frequency
`omega = 2*pi*freq` of `Z(omega) * exp(-omega^2 * sig^2)`. -/
noncomputable def factorClaimOmega (freq Zarr : List ℝ) (sig : ℝ) : ℝ :=
  let omega := freq.map (fun f => 2 * Real.pi * f)
  trapz (List.zipWith (fun z ww => z * Real.exp (-ww ^ 2 * sig ^ 2)) Zarr omega) omega
    * clight / (2 * Real.pi) * 1e-12

/-- The frequency-domain factor as the amended claim words it:
`(c/2*pi) * 1e-12` times the trapezoidal integral over the wavenumber axis
`k = omega/c` of `Z(omega) * exp(-k^2 * sig^2)`. -/
noncomputable def factorClaimK (freq Zarr : List ℝ) (sig : ℝ) : ℝ :=
  let omega := freq.map (fun f => 2 * Real.pi * f)
  trapz (List.zipWith (fun z ww => z * Real.exp (-(ww / clight) ^ 2 * sig ^ 2)) Zarr omega)
    (omega.map (fun ww => ww / clight)) * clight / (2 * Real.pi) * 1e-12

/-- The six bunch-length scenarios of the claim, in meters. -/
noncomputable def sigScenarios : List ℝ := [2.65e-3, 5.3e-3, 2.65e-3, 4e-3, 10e-3, 10e-3]

/-- The six current scenarios of the claim, in amperes. -/
noncomputable def iScenarios : List ℝ := [0.5, 0.5, 0.01, 0.11, 0.11, 0.5]

/-! ## Helper lemmas -/

lemma linspace_length (a b : ℝ) (num : ℕ) : (linspace a b num).length = num := by
  simp only [linspace, List.length_map, List.length_range]

lemma linspace_getElem (a b : ℝ) {num i : ℕ} (hi : i < num) :
    (linspace a b num)[i]! = a + (b - a) * i / ((num : ℝ) - 1) := by
  rw [getElem!_pos (linspace a b num) i (by rw [linspace_length]; exact hi)]
  simp only [linspace, List.getElem_map, List.getElem_range]

lemma linspace_pairwise_100 {a b : ℝ} (hab : a < b) :
    List.Pairwise (· < ·) (linspace a b 100) := by
  rw [linspace]
  refine List.Pairwise.map _ ?_ (List.pairwise_lt_range 100)
  intro i j hij
  have hij' : (i : ℝ) < j := by exact_mod_cast hij
  have hba : (0 : ℝ) < b - a := sub_pos.mpr hab
  have h99 : ((100 : ℕ) : ℝ) - 1 = 99 := by norm_num
  rw [h99]
  have hmul : (b - a) * i < (b - a) * j := by nlinarith
  have hdiv := (div_lt_div_iff_of_pos_right (show (0:ℝ) < 99 by norm_num)).mpr hmul
  linarith

lemma sigmak_loss_eq (h omega0 Iavg sigs sigmamax : ℝ) (wake saxis freq ReZ : List ℝ) :
    (calc_loss_factor h omega0 Iavg sigs sigmamax wake saxis freq ReZ).sigmak
      = linspace sigs sigmamax 100 := rfl

lemma sigmak_kick_eq (sigs sigmamax : ℝ) (wake saxis freq ImZ : List ℝ) :
    (calc_kick_factor sigs sigmamax wake saxis freq ImZ).sigmak
      = linspace sigs sigmamax 100 := rfl

lemma roll_length {α : Type _} (l : List α) (k : ℕ) : (roll l k).length = l.length := by
  simp only [roll, List.length_append, List.length_drop, List.length_take]
  omega

lemma getLast!_pair (a b : ℝ) : ([a, b] : List ℝ).getLast! = b := rfl

lemma head!_pair (a b : ℝ) : ([a, b] : List ℝ).head! = a := rfl

lemma getElem!_pair_zero (a b : ℝ) : ([a, b] : List ℝ)[0]! = a := rfl

lemma getElem!_pair_one (a b : ℝ) : ([a, b] : List ℝ)[1]! = b := rfl

lemma fst_mem_of_mem_zipWith {α β : Type _} {a : List α} {b : List β} {q : α × β}
    (hq : q ∈ List.zipWith Prod.mk a b) : q.1 ∈ a := by
  induction a generalizing b with
  | nil => simp at hq
  | cons x t ih =>
    cases b with
    | nil => simp at hq
    | cons y u =>
      rw [List.zipWith_cons_cons] at hq
      rcases List.mem_cons.mp hq with rfl | hq2
      · exact List.mem_cons_self _ _
      · exact List.mem_cons_of_mem _ (ih hq2)

lemma mem_map_fst_filter_zip {α β : Type _} (p : α → Bool) (a : List α) (b : List β) (x : α)
    (hx : x ∈ a) (hp : p x = true) (hlen : a.length ≤ b.length) :
    x ∈ ((List.zipWith Prod.mk a b).filter (fun q => p q.1)).map Prod.fst := by
  induction a generalizing b with
  | nil => cases hx
  | cons y t ih =>
    cases b with
    | nil => simp at hlen
    | cons z u =>
      have hlen2 : t.length ≤ u.length := by simpa using hlen
      rw [List.zipWith_cons_cons, List.filter_cons]
      rcases List.mem_cons.mp hx with rfl | hx2
      · rw [if_pos (by simpa using hp)]
        simp
      · by_cases hc : p y = true
        · rw [if_pos (by simpa using hc)]
          simp only [List.map_cons]
          exact List.mem_cons_of_mem _ (ih u hx2 hlen2)
        · rw [if_neg (by simpa using hc)]
          exact ih u hx2 hlen2

lemma map_fst_filter_zip_eq {α β : Type _} (p : α → Bool) (a : List α) (b : List β)
    (hlen : a.length ≤ b.length) :
    ((List.zipWith Prod.mk a b).filter (fun q => p q.1)).map Prod.fst = a.filter p := by
  induction a generalizing b with
  | nil => simp
  | cons y t ih =>
    cases b with
    | nil => simp at hlen
    | cons z u =>
      have hlen2 : t.length ≤ u.length := by simpa using hlen
      rw [List.zipWith_cons_cons, List.filter_cons, List.filter_cons]
      by_cases hc : p y = true
      · rw [if_pos (by simpa using hc), if_pos (by simpa using hc)]
        simp only [List.map_cons, ih u hlen2]
      · rw [if_neg (by simpa using hc), if_neg (by simpa using hc)]
        exact ih u hlen2

lemma map_comp_fst_filter_zip {β : Type _} (p : ℝ → Bool) (g : ℝ → ℝ) (a : List ℝ)
    (b : List β) (hlen : a.length ≤ b.length) :
    ((List.zipWith Prod.mk a b).filter (fun q => p q.1)).map (fun q => g q.1)
      = (a.filter p).map g := by
  rw [← map_fst_filter_zip_eq p a b hlen, List.map_map]
  rfl

lemma mem_fst_of_mem_map_fst_filter_zip {α β : Type _} {a : List α} {b : List β}
    {p : α × β → Bool} {x : α}
    (hx : x ∈ ((List.zipWith Prod.mk a b).filter p).map Prod.fst) : x ∈ a := by
  rcases List.mem_map.mp hx with ⟨q, hq, rfl⟩
  exact fst_mem_of_mem_zipWith (List.mem_of_mem_filter hq)

lemma hanning_length (M : ℕ) : (hanning M).length = M := by
  by_cases h : M = 1
  · subst h; simp [hanning]
  · simp [hanning, h]

lemma window_length {N : ℕ} (hN : 1 ≤ N) : (window N).length = N := by
  simp only [window, List.length_dropLast, List.length_drop, hanning_length]
  omega

lemma hanning_getElem {M n : ℕ} (hM : M ≠ 1) (hn : n < M) :
    (hanning M)[n]! = 0.5 - 0.5 * Real.cos (2 * Real.pi * (n : ℝ) / ((M : ℝ) - 1)) := by
  rw [getElem!_pos (hanning M) n (by rw [hanning_length]; exact hn)]
  simp [hanning, hM]

lemma window_getElem {N j : ℕ} (hN : 1 ≤ N) (hj : j < N) :
    (window N)[j]!
      = 0.5 - 0.5 * Real.cos (2 * Real.pi * ((N - 1 + j : ℕ) : ℝ) / (((2 * N : ℕ) : ℝ) - 1)) := by
  rw [getElem!_pos (window N) j (by rw [window_length hN]; exact hj)]
  simp only [window]
  rw [List.getElem_dropLast, List.getElem_drop]
  rw [← getElem!_pos (hanning (2 * N)) (N - 1 + j) (by rw [hanning_length]; omega)]
  exact hanning_getElem (by omega) (by omega)

lemma hanning_cos_reflect {N k : ℕ} (hk : k ≤ 2 * N - 1) (hN : 1 ≤ N) :
    Real.cos (2 * Real.pi * (k : ℝ) / (((2 * N : ℕ) : ℝ) - 1))
      = Real.cos (2 * Real.pi * ((2 * N - 1 - k : ℕ) : ℝ) / (((2 * N : ℕ) : ℝ) - 1)) := by
  have hD : (((2 * N : ℕ) : ℝ) - 1) = 2 * (N : ℝ) - 1 := by push_cast; ring
  have hNr : (1 : ℝ) ≤ (N : ℝ) := by exact_mod_cast hN
  have hDpos : (0 : ℝ) < 2 * (N : ℝ) - 1 := by linarith
  have hc : ((2 * N - 1 - k : ℕ) : ℝ) = 2 * (N : ℝ) - 1 - k := by
    rw [Nat.cast_sub hk, Nat.cast_sub (by omega : 1 ≤ 2 * N)]
    push_cast; ring
  rw [hD, hc]
  have hang : 2 * Real.pi * (2 * (N : ℝ) - 1 - k) / (2 * (N : ℝ) - 1)
      = 2 * Real.pi - 2 * Real.pi * k / (2 * (N : ℝ) - 1) := by
    field_simp
    ring
  rw [hang, Real.cos_two_pi_sub]

lemma hanning_cos_mono {N n n2 : ℕ} (hN2 : 2 ≤ N) (h1 : N ≤ n) (h2 : n ≤ n2)
    (h3 : n2 ≤ 2 * N - 2) :
    Real.cos (2 * Real.pi * (n : ℝ) / (((2 * N : ℕ) : ℝ) - 1))
      ≤ Real.cos (2 * Real.pi * (n2 : ℝ) / (((2 * N : ℕ) : ℝ) - 1)) := by
  have hk1 : n ≤ 2 * N - 1 := by omega
  have hk2 : n2 ≤ 2 * N - 1 := by omega
  have h1N : 1 ≤ N := by omega
  rw [hanning_cos_reflect (N := N) (k := n) hk1 h1N,
      hanning_cos_reflect (N := N) (k := n2) hk2 h1N]
  have hD : (((2 * N : ℕ) : ℝ) - 1) = 2 * (N : ℝ) - 1 := by push_cast; ring
  have hNr : (2 : ℝ) ≤ (N : ℝ) := by exact_mod_cast hN2
  have hDpos : (0 : ℝ) < 2 * (N : ℝ) - 1 := by linarith
  have hpi := Real.pi_pos
  have hm2 : ((2 * N - 1 - n2 : ℕ) : ℝ) ≤ ((2 * N - 1 - n : ℕ) : ℝ) := by
    exact_mod_cast Nat.sub_le_sub_left h2 _
  have hmn : ((2 * N - 1 - n : ℕ) : ℝ) ≤ (N : ℝ) - 1 := by
    rw [Nat.cast_sub (by omega : n ≤ 2 * N - 1), Nat.cast_sub (by omega : 1 ≤ 2 * N)]
    push_cast
    have : (N : ℝ) ≤ (n : ℝ) := by exact_mod_cast h1
    linarith
  have hm0 : (0 : ℝ) ≤ ((2 * N - 1 - n2 : ℕ) : ℝ) := by positivity
  have h2pi : (0 : ℝ) ≤ 2 * Real.pi := by positivity
  apply Real.cos_le_cos_of_nonneg_of_le_pi
  · rw [hD]
    apply div_nonneg (by positivity) (by linarith)
  · rw [hD, div_le_iff₀ hDpos]
    nlinarith [mul_le_mul_of_nonneg_left hmn h2pi]
  · rw [hD, div_le_div_iff₀ hDpos hDpos]
    nlinarith [mul_le_mul_of_nonneg_right (mul_le_mul_of_nonneg_left hm2 h2pi)
      (le_of_lt hDpos)]

lemma except_bind_ok {α β : Type _} (a : α) (f : α → Except PyErr β) :
    ((Except.ok a : Except PyErr α) >>= f) = f a := rfl

lemma except_bind_error {α β : Type _} (e : PyErr) (f : α → Except PyErr β) :
    ((Except.error e : Except PyErr α) >>= f) = Except.error e := rfl

lemma except_pure {α : Type _} (a : α) : (pure a : Except PyErr α) = Except.ok a := rfl

lemma bind_error_elim {α β : Type _} {A : Except PyErr α} {f : α → Except PyErr β}
    {e : PyErr} (h : (A >>= f) = .error e) :
    A = .error e ∨ ∃ v, A = .ok v ∧ f v = .error e := by
  cases A with
  | error e2 =>
    left
    rw [except_bind_error] at h
    have he : e2 = e := by injection h
    rw [he]
  | ok v =>
    right
    exact ⟨v, rfl, by rwa [except_bind_ok] at h⟩

lemma bcast2_error_eq {f : ℝ → ℝ → ℝ} {a b : List ℝ} {e : PyErr}
    (h : bcast2 f a b = .error e) : e = .valueError := by
  unfold bcast2 at h
  split at h
  · exact absurd h (by simp)
  · split at h
    · exact absurd h (by simp)
    · split at h
      · exact absurd h (by simp)
      · exact (Except.error.injEq _ _ ▸ h).symm

lemma trapzE_error_eq {y x : List ℝ} {e : PyErr} (h : trapzE y x = .error e) :
    e = .valueError := by
  unfold trapzE at h
  rcases bind_error_elim h with h1 | ⟨v, _, h2⟩
  · exact bcast2_error_eq h1
  · exact absurd h2 (by simp [except_pure])

lemma kfactorE_error_eq {freq Zarr : List ℝ} {sig : ℝ} {e : PyErr}
    (h : kfactorE freq Zarr sig = .error e) : e = .valueError := by
  unfold kfactorE at h
  rcases bind_error_elim h with h1 | ⟨v, _, h2⟩
  · exact bcast2_error_eq h1
  · rcases bind_error_elim h2 with h3 | ⟨w, _, h4⟩
    · exact trapzE_error_eq h3
    · exact absurd h4 (by simp [except_pure])

lemma mapM_error {α : Type _} {F : α → Except PyErr ℝ} {l : List α} {e : PyErr}
    (h : l.mapM F = .error e) : ∃ a ∈ l, F a = .error e := by
  induction l with
  | nil =>
    rw [List.mapM_nil] at h
    exact absurd h (by simp [except_pure])
  | cons x t ih =>
    rw [List.mapM_cons] at h
    rcases bind_error_elim h with h1 | ⟨v, _, h2⟩
    · exact ⟨x, by simp, h1⟩
    · rcases bind_error_elim h2 with h3 | ⟨w, _, h4⟩
      · rcases ih h3 with ⟨a, ha, hFa⟩
        exact ⟨a, by simp [ha], hFa⟩
      · exact absurd h4 (by simp [except_pure])

lemma mapM_ok_of_ok {α : Type _} {F : α → Except PyErr ℝ} {g : α → ℝ} {l : List α}
    (H : ∀ a ∈ l, F a = .ok (g a)) : l.mapM F = .ok (l.map g) := by
  induction l with
  | nil => simp only [List.mapM_nil, List.map_nil, except_pure]
  | cons x t ih =>
    rw [List.mapM_cons, H x (by simp), except_bind_ok,
        ih (fun a ha => H a (by simp [ha])), except_bind_ok, except_pure]
    simp

lemma calc_loss_factor_run_error_eq {h omega0 Iavg sigs sigmamax : ℝ}
    {wake saxis freq ReZ : List ℝ} {e : PyErr}
    (herr : calc_loss_factor_run h omega0 Iavg sigs sigmamax wake saxis freq ReZ
      = .error e) : e = .valueError := by
  unfold calc_loss_factor_run at herr
  rcases bind_error_elim herr with h1 | ⟨v1, _, h2⟩
  · rcases mapM_error h1 with ⟨a, _, ha⟩
    exact kfactorE_error_eq ha
  · rcases bind_error_elim h2 with h3 | ⟨v2, _, h4⟩
    · rcases mapM_error h3 with ⟨a, _, ha⟩
      exact kfactorE_error_eq ha
    · rcases bind_error_elim h4 with h5 | ⟨v3, _, h6⟩
      · exact bcast2_error_eq h5
      · rcases bind_error_elim h6 with h7 | ⟨v4, _, h8⟩
        · exact trapzE_error_eq h7
        · exact absurd h8 (by simp [except_pure])

lemma calc_kick_factor_run_error_eq {sigs sigmamax : ℝ} {wake saxis freq ImZ : List ℝ}
    {e : PyErr}
    (herr : calc_kick_factor_run sigs sigmamax wake saxis freq ImZ = .error e) :
    e = .valueError := by
  unfold calc_kick_factor_run at herr
  rcases bind_error_elim herr with h1 | ⟨v1, _, h2⟩
  · exact kfactorE_error_eq h1
  · rcases bind_error_elim h2 with h3 | ⟨v2, _, h4⟩
    · rcases mapM_error h3 with ⟨a, _, ha⟩
      exact kfactorE_error_eq ha
    · rcases bind_error_elim h4 with h5 | ⟨v3, _, h6⟩
      · exact bcast2_error_eq h5
      · rcases bind_error_elim h6 with h7 | ⟨v4, _, h8⟩
        · exact trapzE_error_eq h7
        · exact absurd h8 (by simp [except_pure])

lemma kfactorE_empty (sig : ℝ) : kfactorE ([] : List ℝ) ([] : List ℝ) sig = .ok 0 := by
  unfold kfactorE trapzE bcast2
  simp [except_bind_ok, except_pure]

lemma kfactorE_mismatch {freq Zarr : List ℝ} (h1 : 2 ≤ freq.length) (h2 : 2 ≤ Zarr.length)
    (hne : freq.length ≠ Zarr.length) (sig : ℝ) :
    kfactorE freq Zarr sig = .error .valueError := by
  simp only [kfactorE]
  have hb : bcast2 (· * ·) Zarr
      ((freq.map (fun f : ℝ => f * 2 * Real.pi / clight)).map
        (fun kk : ℝ => Real.exp (-kk ^ 2 * sig ^ 2))) = .error .valueError := by
    unfold bcast2
    rw [if_neg (by simp; omega), if_neg (by omega), if_neg (by simp; omega)]
  rw [hb, except_bind_error]

lemma map_zero_linspace (a b : ℝ) :
    (linspace a b 100).map (fun _ : ℝ => (0 : ℝ)) = List.replicate 100 0 := by
  rw [List.eq_replicate_iff]
  constructor
  · simp [linspace_length]
  · intro x hx
    rcases List.mem_map.mp hx with ⟨_, _, rfl⟩
    rfl

lemma getElem!_map (f : ℝ → ℝ) (l : List ℝ) {i : ℕ} (hi : i < l.length) :
    (l.map f)[i]! = f (l[i]!) := by
  rw [getElem!_pos (l.map f) i (by simpa), getElem!_pos l i hi, List.getElem_map]

lemma klossZ_eq (h omega0 Iavg sigs sigmamax : ℝ) (wake saxis freq ReZ : List ℝ) :
    (calc_loss_factor h omega0 Iavg sigs sigmamax wake saxis freq ReZ).klossZ
      = (linspace sigs sigmamax 100).map (kfactor freq ReZ) := rfl

lemma kickZ_eq (sigs sigmamax : ℝ) (wake saxis freq ImZ : List ℝ) :
    (calc_kick_factor sigs sigmamax wake saxis freq ImZ).kickZ
      = (linspace sigs sigmamax 100).map (kfactor freq ImZ) := rfl

lemma kfactor_eq_factorClaimK (freq Zarr : List ℝ) (sig : ℝ) :
    kfactor freq Zarr sig = factorClaimK freq Zarr sig := by
  simp only [kfactor, factorClaimK, List.map_map]
  have hx : (fun f : ℝ => f * 2 * Real.pi / clight)
      = fun f : ℝ => 2 * Real.pi * f / clight := by
    funext f; ring
  have hy : (fun (z f : ℝ) => z * Real.exp (-(f * 2 * Real.pi / clight) ^ 2 * sig ^ 2))
      = fun (z f : ℝ) => z * Real.exp (-(2 * Real.pi * f / clight) ^ 2 * sig ^ 2) := by
    funext z f
    have : -(f * 2 * Real.pi / clight) ^ 2 * sig ^ 2
        = -(2 * Real.pi * f / clight) ^ 2 * sig ^ 2 := by ring
    rw [this]
  rw [List.zipWith_map_right, List.zipWith_map_right, hx, hy]
  rfl

lemma kfactor_two_point (sig : ℝ) :
    kfactor [0, 1 / (2 * Real.pi)] [1, 1] sig
      = (1 + Real.exp (-(sig / clight) ^ 2)) / 2 / (2 * Real.pi) * 1e-12 := by
  have hpi := Real.pi_pos
  have hcl : clight = 299792458 := rfl
  have harg : -((1 : ℝ) / (2 * Real.pi) * 2 * Real.pi / clight) ^ 2 * sig ^ 2
      = -(sig / clight) ^ 2 := by
    rw [hcl]
    field_simp
  simp only [kfactor, trapz, List.map_cons, List.map_nil, List.zipWith_cons_cons,
    List.zipWith_nil_right, List.length_cons, List.length_nil, List.range_succ,
    List.range_zero, List.nil_append, getElem!_pair_zero, getElem!_pair_one,
    List.sum_cons, List.sum_nil, harg]
  rw [show -((0 : ℝ) * 2 * Real.pi / clight) ^ 2 * sig ^ 2 = 0 by ring, Real.exp_zero]
  rw [hcl]
  field_simp
  ring

lemma factorClaimOmega_two_point (sig : ℝ) :
    factorClaimOmega [0, 1 / (2 * Real.pi)] [1, 1] sig
      = (1 + Real.exp (-sig ^ 2)) / 2 * clight / (2 * Real.pi) * 1e-12 := by
  have hpi := Real.pi_pos
  have harg : -(2 * Real.pi * ((1 : ℝ) / (2 * Real.pi))) ^ 2 * sig ^ 2 = -sig ^ 2 := by
    field_simp
  simp only [factorClaimOmega, trapz, List.map_cons, List.map_nil, List.zipWith_cons_cons,
    List.zipWith_nil_right, List.length_cons, List.length_nil, List.range_succ,
    List.range_zero, List.nil_append, zero_add, sub_zero, one_mul, add_zero,
    getElem!_pair_zero, getElem!_pair_one, List.sum_cons, List.sum_nil, harg]
  rw [show -(2 * Real.pi * (0 : ℝ)) ^ 2 * sig ^ 2 = 0 by ring, Real.exp_zero]
  field_simp

/-! ## Claims -/

/-- C1 (amended): the window `calc_impedance` multiplies into a wake of
length `N ≥ 2` is the decreasing half of a length-`2N` Hanning window: its
`N` values are non-increasing from the first sample to the last (the first
value is maximal), so the trailing tail is tapered while the causal onset of
the wake is not attenuated. -/
theorem C1_window_nonincreasing (N i j : ℕ) (hN : 2 ≤ N) (hij : i ≤ j) (hj : j < N) :
    (window N)[j]! ≤ (window N)[i]! := by
  have hi : i < N := lt_of_le_of_lt hij hj
  rw [window_getElem (by omega) hj, window_getElem (by omega) hi]
  have key : Real.cos (2 * Real.pi * ((N - 1 + i : ℕ) : ℝ) / (((2 * N : ℕ) : ℝ) - 1))
      ≤ Real.cos (2 * Real.pi * ((N - 1 + j : ℕ) : ℝ) / (((2 * N : ℕ) : ℝ) - 1)) := by
    rcases Nat.eq_zero_or_pos i with rfl | hipos
    · rcases Nat.eq_zero_or_pos j with rfl | hjpos
      · exact le_refl _
      · have hidx : N - 1 + 0 = N - 1 := by omega
        rw [hidx]
        have hrefl := hanning_cos_reflect (N := N) (k := N - 1) (by omega) (by omega)
        have hidx2 : 2 * N - 1 - (N - 1) = N := by omega
        rw [hidx2] at hrefl
        rw [hrefl]
        exact hanning_cos_mono (by omega) (by omega) (by omega) (by omega)
    · exact hanning_cos_mono (by omega) (by omega) (by omega) (by omega)
  linarith

/-- Witness for C1 (amended) at `N = 3`, `i = 1`, `j = 2`. -/
theorem C1_window_nonincreasing_witness :
    2 ≤ 3 ∧ (1 : ℕ) ≤ 2 ∧ 2 < 3 ∧ (window 3)[2]! ≤ (window 3)[1]! :=
  ⟨by norm_num, by norm_num, by norm_num,
    C1_window_nonincreasing 3 1 2 (by norm_num) (by norm_num) (by norm_num)⟩

/-- Counterexample to C1 as stated: for a wake of length `N = 3 ≥ 2` the
window values are not non-decreasing: the value at index 1 strictly exceeds
the value at index 2. -/
theorem C1_counterexample : ¬ ((window 3)[1]! ≤ (window 3)[2]!) := by
  rw [window_getElem (N := 3) (j := 1) (by norm_num) (by norm_num),
      window_getElem (N := 3) (j := 2) (by norm_num) (by norm_num)]
  push_neg
  norm_num
  have hpi := Real.pi_pos
  have e1 : 2 * Real.pi * 3 / 5 = 2 * Real.pi - 4 * Real.pi / 5 := by ring
  have e2 : 2 * Real.pi * 4 / 5 = 2 * Real.pi - 2 * Real.pi / 5 := by ring
  have h34 : Real.cos (2 * Real.pi * 3 / 5) < Real.cos (2 * Real.pi * 4 / 5) := by
    calc Real.cos (2 * Real.pi * 3 / 5) = Real.cos (4 * Real.pi / 5) := by
          rw [e1, Real.cos_two_pi_sub]
      _ < Real.cos (2 * Real.pi / 5) :=
          Real.cos_lt_cos_of_nonneg_of_le_pi (by positivity) (by linarith) (by linarith)
      _ = Real.cos (2 * Real.pi * 4 / 5) := by rw [e2, Real.cos_two_pi_sub]
  linarith

/-- C5: for every configuration with `sigmamax > bunlen`, the bunch-length
scan array `sigmak` produced by `calc_loss_factor` (and by
`calc_kick_factor`) has exactly 100 elements, is strictly increasing, its
first element equals the simulated bunch length and its last element equals
`sigmamax`. -/
theorem C5_sigmak_scan (h omega0 Iavg sigs sigmamax : ℝ)
    (wake saxis freq ReZ ImZ : List ℝ) (hlt : sigs < sigmamax) :
    ((calc_loss_factor h omega0 Iavg sigs sigmamax wake saxis freq ReZ).sigmak.length = 100
      ∧ List.Pairwise (· < ·)
          (calc_loss_factor h omega0 Iavg sigs sigmamax wake saxis freq ReZ).sigmak
      ∧ (calc_loss_factor h omega0 Iavg sigs sigmamax wake saxis freq ReZ).sigmak[0]! = sigs
      ∧ (calc_loss_factor h omega0 Iavg sigs sigmamax wake saxis freq ReZ).sigmak[99]!
          = sigmamax)
    ∧ ((calc_kick_factor sigs sigmamax wake saxis freq ImZ).sigmak.length = 100
      ∧ List.Pairwise (· < ·) (calc_kick_factor sigs sigmamax wake saxis freq ImZ).sigmak
      ∧ (calc_kick_factor sigs sigmamax wake saxis freq ImZ).sigmak[0]! = sigs
      ∧ (calc_kick_factor sigs sigmamax wake saxis freq ImZ).sigmak[99]! = sigmamax) := by
  rw [sigmak_loss_eq, sigmak_kick_eq]
  have h0 : (linspace sigs sigmamax 100)[0]! = sigs := by
    rw [linspace_getElem sigs sigmamax (by norm_num)]
    norm_num
  have h99 : (linspace sigs sigmamax 100)[99]! = sigmamax := by
    rw [linspace_getElem sigs sigmamax (by norm_num)]
    push_cast
    ring
  exact ⟨⟨linspace_length sigs sigmamax 100, linspace_pairwise_100 hlt, h0, h99⟩,
         ⟨linspace_length sigs sigmamax 100, linspace_pairwise_100 hlt, h0, h99⟩⟩

/-- Witness for C5 at the concrete configuration `bunlen = 1`,
`sigmamax = 2`. -/
theorem C5_sigmak_scan_witness :
    (1 : ℝ) < 2
    ∧ (((calc_loss_factor 1 1 1 1 2 [] [] [] []).sigmak.length = 100
      ∧ List.Pairwise (· < ·) (calc_loss_factor 1 1 1 1 2 [] [] [] []).sigmak
      ∧ (calc_loss_factor 1 1 1 1 2 [] [] [] []).sigmak[0]! = 1
      ∧ (calc_loss_factor 1 1 1 1 2 [] [] [] []).sigmak[99]! = 2)
    ∧ ((calc_kick_factor 1 2 [] [] [] []).sigmak.length = 100
      ∧ List.Pairwise (· < ·) (calc_kick_factor 1 2 [] [] [] []).sigmak
      ∧ (calc_kick_factor 1 2 [] [] [] []).sigmak[0]! = 1
      ∧ (calc_kick_factor 1 2 [] [] [] []).sigmak[99]! = 2)) :=
  ⟨by norm_num, C5_sigmak_scan 1 1 1 1 2 [] [] [] [] [] (by norm_num)⟩

/-- C2: every frequency bin retained by `calc_impedance` satisfies
`|omega| ≤ cutoff/sigma_t` where `omega = 2*pi*freq` and
`sigma_t = bunlen/c`. -/
theorem C2_cutoff_invariant (m : ℕ) (sigs cutoff f0 : ℝ) (W saxis : List ℝ) (f : ℝ)
    (hf : f ∈ (calc_impedance m sigs cutoff f0 W saxis).freq) :
    |2 * Real.pi * f| ≤ cutoff / (sigs / clight) := by
  simp only [calc_impedance] at hf
  split at hf
  · rcases List.mem_map.mp hf with ⟨q, hq, rfl⟩
    have hpq := List.of_mem_filter hq
    simpa using hpq
  · rcases List.mem_map.mp hf with ⟨q, hq, rfl⟩
    have hpq := List.of_mem_filter hq
    simpa using hpq

/-- Witness for C2: a 1-sample wake whose single retained frequency bin is 0. -/
theorem C2_cutoff_invariant_witness :
    ((0 : ℝ) ∈ (calc_impedance 0 clight 10 1 [1] [0, 2 * clight]).freq)
      ∧ |2 * Real.pi * (0 : ℝ)| ≤ 10 / (clight / clight) := by
  have hmem : (0 : ℝ) ∈ (calc_impedance 0 clight 10 1 [1] [0, 2 * clight]).freq := by
    simp only [calc_impedance, if_true]
    refine mem_map_fst_filter_zip
      (fun x => decide (|2 * Real.pi * x| ≤ 10 / (clight / clight))) _ _ 0 ?_ ?_ ?_
    · simp [fftfreq, roll, List.range_succ]
    · rw [decide_eq_true_eq]
      norm_num [clight]
    · simp [fftfreq, roll_length, npfft, window, hanning, List.length_zipWith]
  exact ⟨hmem, C2_cutoff_invariant 0 clight 10 1 [1] [0, 2 * clight] 0 hmem⟩

/-- C7: for a GdfidL source in dipole mode with the symmetry flag set, the
returned wake equals the average of the second columns of the two
offset-probe files divided by the transverse shift value (`fx` for axis `x`,
`fy` for axis `y`) parsed from the third header line of the companion
`Results-Wq` file. -/
theorem C7_gdfidl_dipole_shift (wq : List HeaderLine) (r1 r2 : List (ℝ × ℝ)) :
    (load_wake_gdfidl_dip_sym "y" wq r1 r2).2
        = (List.zipWith (fun a b => (a + b) / 2) (r1.map Prod.snd) (r2.map Prod.snd)).map
            (· / (wq[2]!).fy)
    ∧ (load_wake_gdfidl_dip_sym "x" wq r1 r2).2
        = (List.zipWith (fun a b => (a + b) / 2) (r1.map Prod.snd) (r2.map Prod.snd)).map
            (· / (wq[2]!).fx) := by
  have hyx : pyStartswith "y" "x" = false := rfl
  have hyy : pyStartswith "y" "y" = true := rfl
  have hxx : pyStartswith "x" "x" = true := rfl
  constructor <;>
    simp [load_wake_gdfidl_dip_sym, textscan, hyx, hyy, hxx, List.map_zipWith,
      List.zipWith_map]

/-- C8: the ACE3P branch of `load_wake` reads `simpar.sigma`, an attribute
`Simpar` never defines, so instead of returning positions shifted by five
simulated bunch lengths it raises `AttributeError`; evaluated here at a
concrete well-formed input. -/
theorem C8_ace3p_attribute_error :
    load_wake_single
        { wakepath := "", targetdir := "", datasource := "ACE3P", m := 0, offset := 0,
          sym := true, whichaxis := "y", units := 1, bunlen := 5e-4, cutoff := 2 }
        [(1, 2)]
      = Except.error PyErr.attributeError := by
  have hA : pyStartswith "ACE3P" "ACE3P" = true := rfl
  simp [load_wake_single, Simpar.floatAttr, hA]

/-- Counterexample to C10: for the non-GdfidL source ACE3P in mode `m = 0`,
`load_wake` does not return any wake at all: it raises `AttributeError`
(the `simpar.sigma` defect) before returning. -/
theorem C10_counterexample :
    load_wake_single
        { wakepath := "", targetdir := "", datasource := "ACE3P", m := 0, offset := 0,
          sym := true, whichaxis := "x", units := 1, bunlen := 1e-3, cutoff := 2 }
        [(0, 1), (2, 3)]
      = Except.error PyErr.attributeError := by
  have hA : pyStartswith "ACE3P" "ACE3P" = true := rfl
  simp [load_wake_single, Simpar.floatAttr, hA]

/-- C10 (amended): in mode `m = 0` the wake negation happens in the shared
read step, so CST and ECHO both return `W = -column2` (the negation is not
ECHO-specific); ACE3P would too but raises `AttributeError` first; and CST's
additional documented negation applies only for `m > 0` (for `m = 1` the CST
wake is the negation of the raw, un-negated second column). -/
theorem C10_m0_negation (wp td ax : String) (off u : ℤ) (sym : Bool) (bl co : ℝ)
    (rows : List (ℝ × ℝ)) :
    load_wake_single
        { wakepath := wp, targetdir := td, datasource := "CST", m := 0, offset := off,
          sym := sym, whichaxis := ax, units := u, bunlen := bl, cutoff := co } rows
      = Except.ok (rows.map (fun r => r.1 / 1000), rows.map (fun r => -r.2))
    ∧ load_wake_single
        { wakepath := wp, targetdir := td, datasource := "ECHO", m := 0, offset := off,
          sym := sym, whichaxis := ax, units := u, bunlen := bl, cutoff := co } rows
      = Except.ok (rows.map (fun r => r.1 / 100), rows.map (fun r => -r.2))
    ∧ load_wake_single
        { wakepath := wp, targetdir := td, datasource := "ACE3P", m := 0, offset := off,
          sym := sym, whichaxis := ax, units := u, bunlen := bl, cutoff := co } rows
      = Except.error PyErr.attributeError
    ∧ load_wake_single
        { wakepath := wp, targetdir := td, datasource := "CST", m := 1, offset := off,
          sym := sym, whichaxis := ax, units := u, bunlen := bl, cutoff := co } rows
      = Except.ok (rows.map (fun r => r.1 / 1000), rows.map (fun r => -r.2)) := by
  have h1 : pyStartswith "CST" "ACE3P" = false := rfl
  have h2 : pyStartswith "CST" "CST" = true := rfl
  have h3 : pyStartswith "ECHO" "ACE3P" = false := rfl
  have h4 : pyStartswith "ECHO" "CST" = false := rfl
  have h5 : pyStartswith "ECHO" "ECHO" = true := rfl
  have h6 : pyStartswith "ACE3P" "ACE3P" = true := rfl
  refine ⟨?_, ?_, ?_, ?_⟩ <;>
    simp [load_wake_single, Simpar.floatAttr, h1, h2, h3, h4, h5, h6, List.map_map,
      Function.comp]

/-- C3 (amended): for mode `m = 0`, `calc_impedance` computes the `Z/n`
arrays exactly over those retained frequencies satisfying
`2*pi*|freq| < 20e9` (that is, `|omega| < 20e9 rad/s`, not
`|omega| < 2*pi*20e9`) and `freq ≠ 0`, and over no others: `naxis` is the
retained frequency axis filtered by exactly that predicate and divided by
`f0`, and `ImZoN` pairs with `naxis` entry by entry. -/
theorem C3_zon_selection (sigs cutoff f0 : ℝ) (W saxis : List ℝ) :
    (calc_impedance 0 sigs cutoff f0 W saxis).naxis
      = naxisCode (calc_impedance 0 sigs cutoff f0 W saxis).freq f0
    ∧ (calc_impedance 0 sigs cutoff f0 W saxis).ImZoN.length
      = (calc_impedance 0 sigs cutoff f0 W saxis).naxis.length := by
  constructor
  · simp only [calc_impedance, if_true, naxisCode]
    exact map_comp_fst_filter_zip
      (fun f => decide (2 * Real.pi * |f| < 20e9 ∧ f ≠ 0)) (fun f => f / f0) _ _
      (by simp)
  · simp only [calc_impedance, if_true]
    simp

/-- Counterexample to C3: a concrete mode-0 run retaining the bin
`freq = -5e9 Hz`.  That bin has `|omega| = pi*1e10 < 2*pi*20e9`, so the
claim's threshold keeps it in the `Z/n` axis, but the code's condition
`2*pi*|freq| < 20e9` (i.e. `pi < 2`) rejects it, leaving `naxis` empty. -/
theorem C3_counterexample :
    (calc_impedance 0 (clight * 1e-12) 2 1 [1, 1] [0, clight * 1e-10]).naxis
      ≠ naxisClaimed (calc_impedance 0 (clight * 1e-12) 2 1 [1, 1] [0, clight * 1e-10]).freq
          1 := by
  have hpi3 := Real.pi_gt_three
  have hpi4 := Real.pi_lt_four
  have hpi0 := Real.pi_pos
  -- the retained frequency axis contains the bin -5e9
  have hmem : (-5e9 : ℝ) ∈ (calc_impedance 0 (clight * 1e-12) 2 1 [1, 1]
      [0, clight * 1e-10]).freq := by
    simp only [calc_impedance, if_true]
    refine mem_map_fst_filter_zip
      (fun x => decide (|2 * Real.pi * x| ≤ 2 / (clight * 1e-12 / clight))) _ _ _ ?_ ?_ ?_
    · norm_num [fftfreq, roll, List.range_succ, clight, getLast!_pair, head!_pair]
    · rw [decide_eq_true_eq]
      rw [abs_of_nonpos (by nlinarith)]
      norm_num [clight]
      nlinarith
    · simp [roll_length, fftfreq, npfft, window, hanning, List.length_zipWith]
  -- every retained frequency is -5e9 or 0
  have hall : ∀ f ∈ (calc_impedance 0 (clight * 1e-12) 2 1 [1, 1]
      [0, clight * 1e-10]).freq, f = -5e9 ∨ f = 0 := by
    intro f hf
    simp only [calc_impedance, if_true] at hf
    have hf2 := mem_fst_of_mem_map_fst_filter_zip hf
    norm_num [fftfreq, roll, List.range_succ, clight, getLast!_pair, head!_pair] at hf2
    rcases hf2 with h | h
    · left; rw [h]; norm_num
    · right; exact h
  -- hence the code-side Z/n axis is empty
  have hnaxis : (calc_impedance 0 (clight * 1e-12) 2 1 [1, 1]
      [0, clight * 1e-10]).naxis = [] := by
    have hfilter : ((calc_impedance 0 (clight * 1e-12) 2 1 [1, 1]
        [0, clight * 1e-10]).freq).filter
          (fun f => decide (2 * Real.pi * |f| < 20e9 ∧ f ≠ 0)) = [] := by
      rw [List.filter_eq_nil_iff]
      intro f hf
      rcases hall f hf with rfl | rfl
      · rw [abs_neg, abs_of_nonneg (by norm_num)]
        simp only [decide_eq_true_eq, not_and]
        intro hlt
        nlinarith
      · simp
    simp only [calc_impedance, if_true, naxisCode]
    rw [map_comp_fst_filter_zip
      (fun f => decide (2 * Real.pi * |f| < 20e9 ∧ f ≠ 0)) (fun f => f / (1:ℝ)) _ _
      (by simp)]
    simp only [calc_impedance, if_true] at hfilter
    rw [hfilter]
    simp
  -- while the claim-side Z/n axis contains -5e9
  have hclaim : (-5e9 : ℝ) / 1 ∈ naxisClaimed
      ((calc_impedance 0 (clight * 1e-12) 2 1 [1, 1] [0, clight * 1e-10]).freq) 1 := by
    rw [naxisClaimed]
    refine List.mem_map.mpr ⟨-5e9, ?_, rfl⟩
    refine List.mem_filter.mpr ⟨hmem, ?_⟩
    rw [decide_eq_true_eq]
    constructor
    · rw [abs_of_nonpos (by nlinarith)]
      nlinarith
    · norm_num
  intro heq
  rw [← heq, hnaxis] at hclaim
  exact absurd hclaim (List.not_mem_nil _)

/-- C4 (amended): for every bunch length in the 100-point scan, the
frequency-domain factor computed by `calc_loss_factor` (and analogously by
`calc_kick_factor` for `Im Z_t`) equals `(c/2*pi) * 1e-12` times the
trapezoidal integral over the wavenumber axis `k = omega/c` of
`Z(omega) * exp(-k^2 * sigma^2)` — the integration variable is `k`, not
`omega`, and the Gaussian argument is `k^2 sigma^2`, not
`omega^2 sigma^2`. -/
theorem C4_scan_factor (h omega0 Iavg sigs sigmamax : ℝ)
    (wake saxis freq ReZ ImZ : List ℝ) (i : ℕ) (hi : i < 100) :
    (calc_loss_factor h omega0 Iavg sigs sigmamax wake saxis freq ReZ).klossZ[i]!
        = factorClaimK freq ReZ
            ((calc_loss_factor h omega0 Iavg sigs sigmamax wake saxis freq ReZ).sigmak[i]!)
    ∧ (calc_kick_factor sigs sigmamax wake saxis freq ImZ).kickZ[i]!
        = factorClaimK freq ImZ
            ((calc_kick_factor sigs sigmamax wake saxis freq ImZ).sigmak[i]!) := by
  have hlen : i < (linspace sigs sigmamax 100).length := by
    rw [linspace_length]; exact hi
  constructor
  · rw [klossZ_eq, sigmak_loss_eq, getElem!_map _ _ hlen, kfactor_eq_factorClaimK]
  · rw [kickZ_eq, sigmak_kick_eq, getElem!_map _ _ hlen, kfactor_eq_factorClaimK]

/-- Witness for C4 (amended) at a concrete configuration and scan index 0. -/
theorem C4_scan_factor_witness :
    (0 : ℕ) < 100
    ∧ ((calc_loss_factor 1 1 1 1 2 [] [] [0, 1] [1, 1]).klossZ[0]!
        = factorClaimK [0, 1] [1, 1]
            ((calc_loss_factor 1 1 1 1 2 [] [] [0, 1] [1, 1]).sigmak[0]!)
    ∧ (calc_kick_factor 1 2 [] [] [0, 1] [1, 1]).kickZ[0]!
        = factorClaimK [0, 1] [1, 1] ((calc_kick_factor 1 2 [] [] [0, 1] [1, 1]).sigmak[0]!)) :=
  ⟨by norm_num, C4_scan_factor 1 1 1 1 2 [] [] [0, 1] [1, 1] [1, 1] 0 (by norm_num)⟩

/-- Counterexample to C4 as stated: at a concrete two-bin impedance the first
scan entry of `klossZ` differs from `(c/2*pi) * 1e-12` times the trapezoidal
integral over angular frequency `omega` of `Re Z * exp(-omega^2 sigma^2)`
(the code integrates over `k = omega/c` with `exp(-k^2 sigma^2)`). -/
theorem C4_counterexample :
    (calc_loss_factor 1 1 1 1 2 [] [] [0, 1 / (2 * Real.pi)] [1, 1]).klossZ[0]!
      ≠ factorClaimOmega [0, 1 / (2 * Real.pi)] [1, 1]
          ((calc_loss_factor 1 1 1 1 2 [] [] [0, 1 / (2 * Real.pi)] [1, 1]).sigmak[0]!) := by
  have hpi := Real.pi_pos
  have hsig : (calc_loss_factor 1 1 1 1 2 [] [] [0, 1 / (2 * Real.pi)] [1, 1]).sigmak[0]!
      = 1 := by
    rw [sigmak_loss_eq, linspace_getElem _ _ (by norm_num : (0:ℕ) < 100)]
    norm_num
  have hkZ : (calc_loss_factor 1 1 1 1 2 [] [] [0, 1 / (2 * Real.pi)] [1, 1]).klossZ[0]!
      = kfactor [0, 1 / (2 * Real.pi)] [1, 1] 1 := by
    rw [klossZ_eq, getElem!_map _ _ (by rw [linspace_length]; norm_num)]
    rw [linspace_getElem _ _ (by norm_num : (0:ℕ) < 100)]
    norm_num
  rw [hsig, hkZ, kfactor_two_point, factorClaimOmega_two_point]
  apply ne_of_lt
  have hcl : clight = 299792458 := rfl
  have hE1 : Real.exp (-((1 : ℝ) / clight) ^ 2) ≤ 1 := by
    rw [Real.exp_le_one_iff]
    nlinarith [sq_nonneg ((1 : ℝ) / clight)]
  have hE2 : (0 : ℝ) < Real.exp (-(1 : ℝ) ^ 2) := Real.exp_pos _
  apply mul_lt_mul_of_pos_right _ (by norm_num : (0 : ℝ) < 1e-12)
  rw [div_lt_div_iff_of_pos_right (by positivity : (0 : ℝ) < 2 * Real.pi)]
  rw [hcl] at hE1 ⊢
  set X := Real.exp (-((1 : ℝ) / 299792458) ^ 2) with hXdef
  set Y := Real.exp (-(1 : ℝ) ^ 2) with hYdef
  linarith

/-- C6 (amended): `calc_loss_factor` produces a `Plossvec` with exactly 6
entries, pairing by index the literal scenarios
`sigma = (2.65, 5.3, 2.65, 4, 10, 10) mm` and `I = (500, 500, 10, 110, 110,
500) mA`, with entry `i` equal to the frequency-domain factor at `sigma_i`
times `I_i^2 * T0 * 1e12 / h` (the code multiplies the factor by `1e12`,
converting V/pC to V/C; the claim's `factor_i * I_i^2 * T0 / h` misses that
conversion). -/
theorem C6_plossvec (h omega0 Iavg sigs sigmamax : ℝ) (wake saxis freq ReZ : List ℝ) :
    (calc_loss_factor h omega0 Iavg sigs sigmamax wake saxis freq ReZ).Plossvec.length = 6
    ∧ sigScenarios.length = 6 ∧ iScenarios.length = 6
    ∧ (calc_loss_factor h omega0 Iavg sigs sigmamax wake saxis freq ReZ).Plossvec
        = List.zipWith
            (fun sg iv => factorClaimK freq ReZ sg * iv ^ 2 * (2 * Real.pi / omega0)
              * 1e12 / h)
            sigScenarios iScenarios := by
  refine ⟨by simp [calc_loss_factor, List.length_zipWith], by simp [sigScenarios],
    by simp [iScenarios], ?_⟩
  show List.zipWith _ (List.map (kfactor freq ReZ) (List.map (· * 1e-3) _)) _ = _
  simp only [sigScenarios, iScenarios, List.map_cons, List.map_nil,
    List.zipWith_cons_cons, List.zipWith_nil_right]
  norm_num [kfactor_eq_factorClaimK]

/-- Counterexample to C6: at a concrete input the first `Plossvec` entry is
`1e12` times the claim's `factor * I^2 * T0 / h`. -/
theorem C6_counterexample :
    (calc_loss_factor 1 (2 * Real.pi) 1 1 2 [] [] [0, 1 / (2 * Real.pi)] [1, 1]).Plossvec.head!
      ≠ factorClaimK [0, 1 / (2 * Real.pi)] [1, 1] 2.65e-3 * 0.5 ^ 2
          * (2 * Real.pi / (2 * Real.pi)) / 1 := by
  have hpi := Real.pi_pos
  have hhead : (calc_loss_factor 1 (2 * Real.pi) 1 1 2 [] [] [0, 1 / (2 * Real.pi)]
      [1, 1]).Plossvec.head!
      = kfactor [0, 1 / (2 * Real.pi)] [1, 1] (2.65 * 1e-3) * (500 * 1e-3) ^ 2
          * (2 * Real.pi / (2 * Real.pi)) * 1e12 / 1 := by
    show (List.zipWith _ (List.map (kfactor [0, 1 / (2 * Real.pi)] [1, 1])
      (List.map (· * 1e-3) _)) (List.map (· * 1e-3) _)).head! = _
    simp only [List.map_cons, List.map_nil, List.zipWith_cons_cons,
      List.zipWith_nil_right, List.head!]
  rw [hhead, ← kfactor_eq_factorClaimK, kfactor_two_point, kfactor_two_point]
  have hq : (2.65 : ℝ) * 1e-3 = 2.65e-3 := by norm_num
  rw [hq]
  have hD : (0 : ℝ)
      < (1 + Real.exp (-((2.65e-3 : ℝ) / clight) ^ 2)) / 2 / (2 * Real.pi) * 1e-12 := by
    positivity
  intro heq
  rw [div_self (by positivity : (2 : ℝ) * Real.pi ≠ 0)] at heq
  nlinarith [hD, heq]

/-- C9 (amended): neither `calc_impedance` nor the factor engines ever raise
`DataConsistencyError` (no such error exists in the code).  Instead: an empty
position array makes `calc_impedance` raise `IndexError`; empty
frequency/impedance arrays make `calc_loss_factor` return zero-valued
factors without raising; and length-mismatched (both lengths at least 2)
frequency/impedance arrays make `calc_loss_factor` and `calc_kick_factor`
raise numpy's broadcast `ValueError`. -/
theorem C9_error_behaviour :
    (∀ m sigs cutoff f0 (W saxis : List ℝ), calc_impedance_run m sigs cutoff f0 W saxis
        ≠ .error .dataConsistencyError)
    ∧ (∀ h omega0 Iavg sigs sigmamax (wake saxis freq ReZ : List ℝ),
        calc_loss_factor_run h omega0 Iavg sigs sigmamax wake saxis freq ReZ
          ≠ .error .dataConsistencyError)
    ∧ (∀ sigs sigmamax (wake saxis freq ImZ : List ℝ),
        calc_kick_factor_run sigs sigmamax wake saxis freq ImZ
          ≠ .error .dataConsistencyError)
    ∧ (∀ m sigs cutoff f0 (W : List ℝ),
        calc_impedance_run m sigs cutoff f0 W [] = .error .indexError)
    ∧ (∀ h omega0 Iavg sigs sigmamax,
        (calc_loss_factor_run h omega0 Iavg sigs sigmamax [] [] [] []).map
            (fun r => r.klossZ)
          = Except.ok (List.replicate 100 0))
    ∧ (∀ h omega0 Iavg sigs sigmamax (wake saxis freq ReZ : List ℝ),
        2 ≤ freq.length → 2 ≤ ReZ.length → freq.length ≠ ReZ.length →
        calc_loss_factor_run h omega0 Iavg sigs sigmamax wake saxis freq ReZ
          = .error .valueError)
    ∧ (∀ sigs sigmamax (wake saxis freq ImZ : List ℝ),
        2 ≤ freq.length → 2 ≤ ImZ.length → freq.length ≠ ImZ.length →
        calc_kick_factor_run sigs sigmamax wake saxis freq ImZ
          = .error .valueError) := by
  refine ⟨?_, ?_, ?_, ?_, ?_, ?_, ?_⟩
  · intro m sigs cutoff f0 W saxis heq
    unfold calc_impedance_run at heq
    split at heq
    · exact absurd heq (by simp)
    · split at heq
      · exact absurd heq (by simp)
      · exact absurd heq (by simp)
  · intro h omega0 Iavg sigs sigmamax wake saxis freq ReZ heq
    have := calc_loss_factor_run_error_eq heq
    exact absurd this (by simp)
  · intro sigs sigmamax wake saxis freq ImZ heq
    have := calc_kick_factor_run_error_eq heq
    exact absurd this (by simp)
  · intro m sigs cutoff f0 W
    simp [calc_impedance_run]
  · intro h omega0 Iavg sigs sigmamax
    have h1 : (linspace sigs sigmamax 100).mapM (kfactorE ([] : List ℝ) [])
        = .ok ((linspace sigs sigmamax 100).map (fun _ : ℝ => (0 : ℝ))) :=
      mapM_ok_of_ok (fun s _ => kfactorE_empty s)
    have h2 : (([2.65, 5.3, 2.65, 4, 10, 10] : List ℝ).map (· * 1e-3)).mapM
        (kfactorE ([] : List ℝ) [])
        = .ok ((([2.65, 5.3, 2.65, 4, 10, 10] : List ℝ).map (· * 1e-3)).map
            (fun _ : ℝ => (0 : ℝ))) :=
      mapM_ok_of_ok (fun s _ => kfactorE_empty s)
    simp only [calc_loss_factor_run, List.map_nil, h1, h2, except_bind_ok]
    simp [bcast2, trapzE, except_bind_ok, except_pure, Except.map, map_zero_linspace]
    rw [linspace_length]
    rfl
  · intro h omega0 Iavg sigs sigmamax wake saxis freq ReZ hf hz hne
    have hkf := kfactorE_mismatch hf hz hne
    obtain ⟨a, t, hat⟩ : ∃ a t, linspace sigs sigmamax 100 = a :: t := by
      cases hls : linspace sigs sigmamax 100 with
      | nil =>
        have hl := linspace_length sigs sigmamax 100
        rw [hls] at hl
        simp at hl
      | cons a t => exact ⟨a, t, rfl⟩
    simp only [calc_loss_factor_run, hat, List.mapM_cons, hkf, except_bind_error]
  · intro sigs sigmamax wake saxis freq ImZ hf hz hne
    have hkf := kfactorE_mismatch hf hz hne
    simp only [calc_kick_factor_run, hkf, except_bind_error]

/-- Witness for C9 (amended) at a concrete mismatched input: a 2-bin
frequency axis against a 3-entry impedance array raises `ValueError`. -/
theorem C9_error_behaviour_witness :
    2 ≤ ([0, 1] : List ℝ).length ∧ 2 ≤ ([1, 2, 3] : List ℝ).length
    ∧ ([0, 1] : List ℝ).length ≠ ([1, 2, 3] : List ℝ).length
    ∧ calc_loss_factor_run 1 1 1 1 2 [] [] [0, 1] [1, 2, 3] = .error .valueError :=
  ⟨by simp, by simp, by simp,
    C9_error_behaviour.2.2.2.2.2.1 1 1 1 1 2 [] [] [0, 1] [1, 2, 3]
      (by simp) (by simp) (by simp)⟩

/-- Counterexample to C9: at the empty input — precisely where the claim
demands `DataConsistencyError` — `calc_impedance` raises `IndexError`
(from `saxis[-1]`) instead. -/
theorem C9_counterexample :
    calc_impedance_run 0 1 2 1 ([] : List ℝ) ([] : List ℝ)
      = Except.error PyErr.indexError := by
  simp [calc_impedance_run]

end ProcessWakes
